import Mathlib

/-!
Verification of the armavita-quo-mcp server (src/server.mjs) against its
natural-language specification.  The JavaScript source is shallowly embedded:
pure helper functions (`redactSecrets`, `extractErrorMessage`, query-string
construction, the per-tool handlers) become Lean functions over an explicit
`JSValue` model of JavaScript/JSON values, and the single network effect of
`quoFetch` is modelled by passing in the outcome of the one `fetch` call as an
explicit `FetchOutcome` value.
-/

/-- JavaScript value model: JSON values plus `undefined`.  Numbers keep their
numeric literal text as produced by the JSON grammar (the claims under
verification only involve integer-valued numbers, for which JavaScript's
canonical rendering coincides with the literal). -/
inductive JSValue where
  | jnull
  | jundefined
  | jbool (b : Bool)
  | jnum (lit : String)
  | jstr (s : String)
  | jarr (xs : List JSValue)
  | jobj (fields : List (String × JSValue))
deriving Repr

-- ===== Character utilities (JavaScript semantics) =====

/-- ASCII lower-casing, as used by a case-insensitive regex over an
all-ASCII pattern (the `i` flag without `u` canonicalises ASCII letters). -/
def asciiLower (c : Char) : Char :=
  if 'A' ≤ c ∧ c ≤ 'Z' then Char.ofNat (c.toNat + 32) else c

/-- JavaScript `\s` character class (WhiteSpace ∪ LineTerminator). -/
def jsWhitespace (c : Char) : Bool :=
  c == ' ' || c == '\t' || c == '\n' || c == '\r' || c == '\x0b' || c == '\x0c' ||
  c == '\u00A0' || c == '\u1680' ||
  (0x2000 ≤ c.toNat && c.toNat ≤ 0x200A) ||
  c == '\u2028' || c == '\u2029' || c == '\u202F' || c == '\u205F' ||
  c == '\u3000' || c == '\uFEFF'

-- ===== String.prototype.replace with a string pattern =====

/-- Model of `s.replace(pat, repl)` with a *string* pattern: replaces only the first
(leftmost) occurrence of `pat`; the replacement text in the source contains
no `$` patterns, so it is inserted literally.  An empty pattern matches at
position 0.  Returns `s` unchanged when `pat` does not occur. -/
def replaceFirstL (s pat repl : List Char) : List Char :=
  if pat.isPrefixOf s then repl ++ s.drop pat.length
  else
    match s with
    | [] => []
    | c :: cs => c :: replaceFirstL cs pat repl

/-- Does `needle` occur as a contiguous substring of `hay`? -/
def containsSubL (needle hay : List Char) : Bool :=
  needle.isPrefixOf hay ||
    match hay with
    | [] => false
    | _ :: cs => containsSubL needle cs

def containsSub (needle hay : String) : Bool :=
  containsSubL needle.data hay.data

-- ===== The Authorization-redaction regex =====
-- Source pattern: /(Authorization["']?\s*:\s*["']?)[^"',\s}]+/gi
-- For this particular pattern, greedy matching without backtracking agrees
-- with the regex semantics: after the optional quote the next required
-- character (`:` resp. a value character) can never be satisfied by the
-- alternative that skips the quote, because a quote is neither `\s` nor `:`
-- and is excluded from the value class.

/-- Characters allowed in the secret-value part: `[^"',\s}]`. -/
def authValueChar (c : Char) : Bool :=
  !(c == '"' || c == '\'' || c == ',' || jsWhitespace c || c == '\x7d')

/-- Case-insensitively strip the (lower-case) pattern `p` from the front of
`cs`; returns the matched input characters (original casing) and the rest. -/
def stripCiPfx : List Char → List Char → Option (List Char × List Char)
  | [], cs => some ([], cs)
  | _ :: _, [] => none
  | p :: ps, c :: cs =>
    if asciiLower c == p then
      match stripCiPfx ps cs with
      | some (m, r) => some (c :: m, r)
      | none => none
    else none

def authWord : List Char := "authorization".data

/-- Consume an optional single or double quote. -/
def takeOptQuote : List Char → (List Char × List Char)
  | [] => ([], [])
  | c :: cs => if c == '"' || c == '\'' then ([c], cs) else ([], c :: cs)

/-- Try to match the Authorization pattern at the head of `cs`.  On success
returns the capture group `$1` (everything up to and including the optional
quote before the value) and the input remaining after the matched value. -/
def tryAuth (cs : List Char) : Option (List Char × List Char) :=
  match stripCiPfx authWord cs with
  | none => none
  | some (m0, r0) =>
    let (q1, r1) := takeOptQuote r0
    let (w1, r2) := (r1.span fun c => jsWhitespace c)
    match r2 with
    | ':' :: r3 =>
      let (w2, r4) := (r3.span fun c => jsWhitespace c)
      let (q2, r5) := takeOptQuote r4
      match r5 with
      | c :: r6 =>
        if authValueChar c then
          let (vtail, r7) := (r6.span fun d => authValueChar d)
          let _ := vtail
          some (m0 ++ q1 ++ w1 ++ [':'] ++ w2 ++ q2, r7)
        else none
      | [] => none
    | _ => none

def authPlaceholder : List Char := "***REDACTED***".data

/-- Global replacement scan for the Authorization pattern.  `fuel` bounds the
number of scan steps; every step consumes at least one input character, so
`fuel = cs.length` is always sufficient. -/
def authGo : Nat → List Char → List Char
  | 0, cs => cs
  | _ + 1, [] => []
  | fuel + 1, c :: cs =>
    match tryAuth (c :: cs) with
    | some (g1, rest) => g1 ++ authPlaceholder ++ authGo fuel rest
    | none => c :: authGo fuel cs

def authReplaceL (cs : List Char) : List Char := authGo cs.length cs

def authReplaceStr (s : String) : String := ⟨authReplaceL s.data⟩

def redactedKeyToken : String := "***REDACTED_API_KEY***"

/-- The string branch of `redactSecrets` (src/server.mjs lines 33–35):
`text.replace(API_KEY, "***REDACTED_API_KEY***").replace(authRegex, "$1***REDACTED***")`. -/
def redactStr (apiKey s : String) : String :=
  authReplaceStr ⟨replaceFirstL s.data apiKey.data redactedKeyToken.data⟩

-- Sanity: the deterministic greedy matcher redacts an Authorization header.
example :
    redactStr "K9" "\x7b\"Authorization\": \"sk-live-42\"\x7d" =
      "\x7b\"Authorization\": \"***REDACTED***\"\x7d" := by decide

example : redactStr "sk-42" "token sk-42 end" = "token ***REDACTED_API_KEY*** end" := by
  decide

-- ===== JSON.stringify =====

def hexDigit (n : Nat) : Char :=
  if n < 10 then Char.ofNat ('0'.toNat + n) else Char.ofNat ('a'.toNat + (n - 10))

/-- Escaping of one character inside a JSON string literal, as
`JSON.stringify` does it (quote, backslash, named control escapes, `\u00xx`
for the remaining control characters). -/
def jsonEscapeChar (c : Char) : List Char :=
  if c == '"' then ['\\', '"']
  else if c == '\\' then ['\\', '\\']
  else if c == '\x08' then ['\\', 'b']
  else if c == '\x0c' then ['\\', 'f']
  else if c == '\n' then ['\\', 'n']
  else if c == '\r' then ['\\', 'r']
  else if c == '\t' then ['\\', 't']
  else if c.toNat < 0x20 then
    ['\\', 'u', '0', '0', hexDigit (c.toNat / 16), hexDigit (c.toNat % 16)]
  else [c]

def jsonQuote (s : String) : String :=
  ⟨'"' :: (s.data.flatMap jsonEscapeChar) ++ ['"']⟩

mutual

/-- Compact `JSON.stringify(v)` (used by `redactSecrets`, line 29).  `none`
models the JavaScript result `undefined` (top-level `undefined` input);
`undefined` array elements render as `null` and `undefined` object members
are omitted, as in JavaScript. -/
def strCompactV : JSValue → Option String
  | .jundefined => none
  | .jnull => some "null"
  | .jbool b => some (if b then "true" else "false")
  | .jnum lit => some lit
  | .jstr s => some (jsonQuote s)
  | .jarr xs => some ("[" ++ String.intercalate "," (strCompactL xs) ++ "]")
  | .jobj fs => some ("\x7b" ++ String.intercalate "," (strCompactF fs) ++ "\x7d")

def strCompactL : List JSValue → List String
  | [] => []
  | x :: xs => ((strCompactV x).getD "null") :: strCompactL xs

def strCompactF : List (String × JSValue) → List String
  | [] => []
  | f :: fs =>
    match strCompactV f.2 with
    | some t => (jsonQuote f.1 ++ ":" ++ t) :: strCompactF fs
    | none => strCompactF fs

end

def stringifyCompact (v : JSValue) : Option String := strCompactV v

mutual

/-- Pretty `JSON.stringify(v, null, 2)` (used by every tool handler and by
`jsonToolResponse`).  The first argument is the current indentation. -/
def strPrettyV : String → JSValue → Option String
  | _, .jundefined => none
  | _, .jnull => some "null"
  | _, .jbool b => some (if b then "true" else "false")
  | _, .jnum lit => some lit
  | _, .jstr s => some (jsonQuote s)
  | _, .jarr [] => some "[]"
  | ind, .jarr xs =>
    some ("[\n" ++ (ind ++ "  ") ++
      String.intercalate (",\n" ++ (ind ++ "  ")) (strPrettyL (ind ++ "  ") xs) ++
      "\n" ++ ind ++ "]")
  | ind, .jobj fs =>
    let members := strPrettyF (ind ++ "  ") fs
    if members.isEmpty then some "\x7b\x7d"
    else
      some ("\x7b\n" ++ (ind ++ "  ") ++
        String.intercalate (",\n" ++ (ind ++ "  ")) members ++
        "\n" ++ ind ++ "\x7d")

def strPrettyL : String → List JSValue → List String
  | _, [] => []
  | ind, x :: xs => ((strPrettyV ind x).getD "null") :: strPrettyL ind xs

def strPrettyF : String → List (String × JSValue) → List String
  | _, [] => []
  | ind, f :: fs =>
    match strPrettyV ind f.2 with
    | some t => (jsonQuote f.1 ++ ": " ++ t) :: strPrettyF ind fs
    | none => strPrettyF ind fs

end

/-- Model of `JSON.stringify(v, null, 2)`; `none` is JavaScript's `undefined` result. -/
def stringifyPretty (v : JSValue) : Option String := strPrettyV "" v

/-- Property access `v?.k` on the model: `undefined` for any non-object and
for a missing key. -/
def getField (v : JSValue) (k : String) : JSValue :=
  match v with
  | .jobj fs =>
    match fs.find? (fun f => f.1 == k) with
    | some f => f.2
    | none => .jundefined
  | _ => .jundefined

/-- Model of `redactSecrets` (src/server.mjs lines 25–36).  `null`/`undefined` are
returned unchanged; strings are redacted directly; every other value is
serialized with compact `JSON.stringify` first.  (The `String(value)`
fallback of the source fires only when serialization throws — circular
structures or BigInt — which the `JSValue` model cannot represent, so the
fallback is dead here.) -/
def redactSecrets (apiKey : String) (v : JSValue) : JSValue :=
  match v with
  | .jundefined => .jundefined
  | .jnull => .jnull
  | .jstr s => .jstr (redactStr apiKey s)
  | w => .jstr (redactStr apiKey ((stringifyCompact w).getD "undefined"))

-- ===== JSON.parse =====

def jsonWsChar (c : Char) : Bool :=
  c == ' ' || c == '\t' || c == '\n' || c == '\r'

def skipJsonWs (cs : List Char) : List Char := cs.dropWhile jsonWsChar

def hexVal (c : Char) : Option Nat :=
  if '0' ≤ c ∧ c ≤ '9' then some (c.toNat - '0'.toNat)
  else if 'a' ≤ c ∧ c ≤ 'f' then some (c.toNat - 'a'.toNat + 10)
  else if 'A' ≤ c ∧ c ≤ 'F' then some (c.toNat - 'A'.toNat + 10)
  else none

/-- Read a `\uXXXX` escape body (the four hex digits). -/
def parseHex4 (cs : List Char) : Option (Nat × List Char) :=
  match cs with
  | h1 :: h2 :: h3 :: h4 :: rest =>
    match hexVal h1, hexVal h2, hexVal h3, hexVal h4 with
    | some a, some b, some c, some d => some (a * 4096 + b * 256 + c * 16 + d, rest)
    | _, _, _, _ => none
  | _ => none

/-- Characters of a JSON string literal after the opening quote, with escape
processing.  A raw control character is a syntax error.  Surrogate-pair
`\u` escapes combine into the astral code point as in JavaScript; a *lone*
surrogate escape (invalid in a Lean `Char`) maps to `U+0000` — a divergence
from JavaScript's UTF-16 strings that no claim exercises. -/
def parseStrChars : Nat → List Char → Option (List Char × List Char)
  | 0, _ => none
  | _ + 1, [] => none
  | fuel + 1, c :: cs =>
    if c == '"' then some ([], cs)
    else if c == '\\' then
      match cs with
      | [] => none
      | e :: cs2 =>
        let simple : Option (Char × List Char) :=
          if e == '"' then some ('"', cs2)
          else if e == '\\' then some ('\\', cs2)
          else if e == '/' then some ('/', cs2)
          else if e == 'b' then some ('\x08', cs2)
          else if e == 'f' then some ('\x0c', cs2)
          else if e == 'n' then some ('\n', cs2)
          else if e == 'r' then some ('\r', cs2)
          else if e == 't' then some ('\t', cs2)
          else none
        match simple with
        | some (ch, rest) =>
          match parseStrChars fuel rest with
          | some (out, r) => some (ch :: out, r)
          | none => none
        | none =>
          if e == 'u' then
            match parseHex4 cs2 with
            | none => none
            | some (code, cs3) =>
              let combined : Char × List Char :=
                if 0xD800 ≤ code ∧ code ≤ 0xDBFF then
                  match cs3 with
                  | '\\' :: 'u' :: tl =>
                    match parseHex4 tl with
                    | some (lo, cs4) =>
                      if 0xDC00 ≤ lo ∧ lo ≤ 0xDFFF then
                        (Char.ofNat (0x10000 + (code - 0xD800) * 1024 + (lo - 0xDC00)), cs4)
                      else (Char.ofNat code, cs3)
                    | none => (Char.ofNat code, cs3)
                  | _ => (Char.ofNat code, cs3)
                else (Char.ofNat code, cs3)
              match parseStrChars fuel combined.2 with
              | some (out, r) => some (combined.1 :: out, r)
              | none => none
          else none
    else if c.toNat < 0x20 then none
    else
      match parseStrChars fuel cs with
      | some (out, r) => some (c :: out, r)
      | none => none

/-- A JSON number literal per the strict JSON grammar
`-? (0 | [1-9][0-9]*) (. [0-9]+)? ([eE] [+-]? [0-9]+)?`; returns the literal
characters and the rest of the input. -/
def parseNumLit (cs : List Char) : Option (List Char × List Char) :=
  let (sign, cs1) :=
    match cs with
    | '-' :: r => (['-'], r)
    | _ => ([], cs)
  let (ip, cs2) := cs1.span Char.isDigit
  match ip with
  | [] => none
  | d0 :: drest =>
    if d0 == '0' ∧ drest ≠ [] then none
    else
      let fracRes : Option (List Char × List Char) :=
        match cs2 with
        | '.' :: r =>
          let (ds, r2) := r.span Char.isDigit
          if ds.isEmpty then none else some ('.' :: ds, r2)
        | _ => some ([], cs2)
      match fracRes with
      | none => none
      | some (fp, cs3) =>
        let expRes : Option (List Char × List Char) :=
          match cs3 with
          | e :: r =>
            if e == 'e' ∨ e == 'E' then
              let (es, r1) :=
                match r with
                | s :: r' => if s == '+' ∨ s == '-' then ([s], r') else ([], r)
                | [] => ([], [])
              let (ds, r2) := r1.span Char.isDigit
              if ds.isEmpty then none else some (e :: es ++ ds, r2)
            else some ([], cs3)
          | [] => some ([], [])
        match expRes with
        | none => none
        | some (ep, cs4) => some (sign ++ ip ++ fp ++ ep, cs4)

/-- Update-or-append for object members: JavaScript keeps the first insertion
position of a duplicated key but its last value. -/
def setField (fs : List (String × JSValue)) (k : String) (v : JSValue) :
    List (String × JSValue) :=
  match fs with
  | [] => [(k, v)]
  | f :: rest => if f.1 == k then (k, v) :: rest else f :: setField rest k v

mutual

/-- Recursive-descent `JSON.parse` value parser.  `fuel` bounds the recursion;
at least one input character is consumed for every two fuel units, so the
wrapper's `2 * length + 4` is always sufficient. -/
def parseVal : Nat → List Char → Option (JSValue × List Char)
  | 0, _ => none
  | fuel + 1, cs0 =>
    let cs := skipJsonWs cs0
    match cs with
    | [] => none
    | '"' :: r =>
      match parseStrChars (r.length + 1) r with
      | some (content, rest) => some (.jstr ⟨content⟩, rest)
      | none => none
    | 't' :: r =>
      if ['r', 'u', 'e'].isPrefixOf r then some (.jbool true, r.drop 3) else none
    | 'f' :: r =>
      if ['a', 'l', 's', 'e'].isPrefixOf r then some (.jbool false, r.drop 4) else none
    | 'n' :: r =>
      if ['u', 'l', 'l'].isPrefixOf r then some (.jnull, r.drop 3) else none
    | '[' :: r =>
      match skipJsonWs r with
      | ']' :: r2 => some (.jarr [], r2)
      | r1 => parseArrRest fuel [] r1
    | '\x7b' :: r =>
      match skipJsonWs r with
      | '\x7d' :: r2 => some (.jobj [], r2)
      | r1 => parseObjRest fuel [] r1
    | _ =>
      match parseNumLit cs with
      | some (lit, rest) => some (.jnum ⟨lit⟩, rest)
      | none => none

/-- Array elements after the first non-`]` position. -/
def parseArrRest : Nat → List JSValue → List Char → Option (JSValue × List Char)
  | 0, _, _ => none
  | fuel + 1, acc, cs =>
    match parseVal fuel cs with
    | none => none
    | some (v, rest) =>
      match skipJsonWs rest with
      | ',' :: r2 => parseArrRest fuel (acc ++ [v]) r2
      | ']' :: r2 => some (.jarr (acc ++ [v]), r2)
      | _ => none

/-- Object members starting at a key position. -/
def parseObjRest : Nat → List (String × JSValue) → List Char →
    Option (JSValue × List Char)
  | 0, _, _ => none
  | fuel + 1, acc, cs =>
    match cs with
    | '"' :: r =>
      match parseStrChars (r.length + 1) r with
      | none => none
      | some (kchars, r1) =>
        match skipJsonWs r1 with
        | ':' :: r2 =>
          match parseVal fuel r2 with
          | none => none
          | some (v, rest) =>
            let acc2 := setField acc ⟨kchars⟩ v
            match skipJsonWs rest with
            | ',' :: r3 =>
              match skipJsonWs r3 with
              | r4 => parseObjRest fuel acc2 r4
            | '\x7d' :: r3 => some (.jobj acc2, r3)
            | _ => none
        | _ => none
    | _ => none

end

/-- Model of `JSON.parse`: `none` models a thrown `SyntaxError`. -/
def jsonParse (s : String) : Option JSValue :=
  match parseVal (2 * s.data.length + 4) s.data with
  | some (v, rest) => if skipJsonWs rest = [] then some v else none
  | none => none

-- Sanity checks for the JSON round trip.
example :
    jsonParse "\x7b\"message\":\"Contact not found\"\x7d" =
      some (.jobj [("message", .jstr "Contact not found")]) := rfl

example :
    jsonParse " \x7b\"a\": [1, -2.5e3, true, null], \"b\": \x7b\x7d\x7d " =
      some (.jobj [("a", .jarr [.jnum "1", .jnum "-2.5e3", .jbool true, .jnull]),
                   ("b", .jobj [])]) := rfl

example : jsonParse "\x7b\"a\":1,\x7d" = none := rfl

example : jsonParse "01" = none := rfl

example :
    stringifyPretty (.jobj [("a", .jnum "1"), ("b", .jarr [.jstr "x"])]) =
      some "\x7b\n  \"a\": 1,\n  \"b\": [\n    \"x\"\n  ]\n\x7d" := rfl

-- ===== extractErrorMessage (src/server.mjs lines 38–49) =====

/-- JavaScript `String.prototype.trim` (same whitespace class as `\s`). -/
def jsTrim (s : String) : String :=
  ⟨((s.data.dropWhile jsWhitespace).reverse.dropWhile jsWhitespace).reverse⟩

/-- The check `typeof x === "string" && x.trim()`: the value must be a string
that is non-blank after trimming. -/
def nonBlankStr : JSValue → Option String
  | .jstr s => if (jsTrim s).isEmpty then none else some s
  | _ => none

/-- Model of `extractErrorMessage(rawBody)`: the empty body is falsy and short-circuits
to "No response body"; otherwise the parsed body's non-blank `message`,
`error.message`, `error` string fields are tried in order, falling back to
the raw body text when parsing throws or no field matches. -/
def extractErrorMessage (rawBody : String) : String :=
  if rawBody.isEmpty then "No response body"
  else
    match jsonParse rawBody with
    | none => rawBody
    | some parsed =>
      match nonBlankStr (getField parsed "message") with
      | some m => m
      | none =>
        match nonBlankStr (getField (getField parsed "error") "message") with
        | some m => m
        | none =>
          match nonBlankStr (getField parsed "error") with
          | some m => m
          | none => rawBody

example : extractErrorMessage "" = "No response body" := by decide
example : extractErrorMessage "\x7b\"error\":\"boom\"\x7d" = "boom" := by decide
example :
    extractErrorMessage "\x7b\"error\":\x7b\"message\":\"deep\"\x7d\x7d" = "deep" := by
  decide
example : extractErrorMessage "not json" = "not json" := by decide

-- ===== quoFetch (src/server.mjs lines 58–102) =====

/-- The one query-parameter value shape the handlers pass to `quoFetch`:
strings, numbers, booleans, arrays of strings, or the absent/null markers.
(Every array-valued parameter in the source is an array of strings.) -/
inductive QueryVal where
  | qstr (s : String)
  | qnum (n : Int)
  | qbool (b : Bool)
  | qarr (xs : List String)
  | qnull
  | qundef
deriving Repr, DecidableEq

/-- Model of `String(v)` for the scalar query values that reach `searchParams.set`. -/
def queryScalarString : QueryVal → Option String
  | .qstr s => some s
  | .qnum n => some (toString n)
  | .qbool b => some (if b then "true" else "false")
  | _ => none

/-- Model of `URLSearchParams.set`: overwrite the first entry with the given key,
drop any further entries with that key, or append when the key is absent. -/
def spSet (ps : List (String × String)) (k v : String) : List (String × String) :=
  match ps with
  | [] => [(k, v)]
  | p :: rest =>
    if p.1 == k then (k, v) :: rest.filter (fun q => q.1 ≠ k)
    else p :: spSet rest k v

/-- Model of `URLSearchParams.append`. -/
def spAppend (ps : List (String × String)) (k v : String) : List (String × String) :=
  ps ++ [(k, v)]

/-- The query-construction loop of `quoFetch` (lines 60–70): entries are
visited in object order; `undefined`/`null` values are skipped; arrays are
appended one element at a time; other values are `String(…)`-converted and
`set`. -/
def buildQuery (entries : List (String × QueryVal)) : List (String × String) :=
  entries.foldl
    (fun ps e =>
      match e.2 with
      | .qundef => ps
      | .qnull => ps
      | .qarr xs => xs.foldl (fun ps' x => spAppend ps' e.1 x) ps
      | v =>
        match queryScalarString v with
        | some s => spSet ps e.1 s
        | none => ps)
    []

/-- The outcome of the single `fetch` call inside `quoFetch`, made explicit:
either a response arrived (status, statusText, body text), or the request was
aborted by the timeout handler (an `AbortError`), or some other transport
error with the given `name` and `message` was thrown (the `message` is also
what a body-parse `SyntaxError` on a 2xx response would carry). -/
inductive FetchOutcome where
  | success (status : Nat) (statusText : String) (body : String)
  | aborted
  | failed (errName errMsg : String)

/-- Model of `Response.ok`: status in the range 200–299. -/
def statusOk (status : Nat) : Bool := 200 ≤ status && status ≤ 299

/-- The timeout error message thrown for an `AbortError` (line 96). -/
def timedOutMsg (timeoutMs : Nat) : String :=
  "Quo API request timed out after " ++ Nat.repr timeoutMs ++ "ms"

/-- The error message built for a non-2xx response (line 89), before the
catch-block rewrapping. -/
def httpErrMsg (apiKey : String) (status : Nat) (statusText body : String) : String :=
  "Quo API " ++ Nat.repr status ++ " " ++ statusText ++ ": " ++
    redactStr apiKey (extractErrorMessage body)

/-- The result of `quoFetch` (lines 72–101) as a function of the fetch
outcome: `Except errMsg jsonValue`.  A non-2xx response throws inside the
`try`, is recaught (its name is "Error", not "AbortError") and rethrown with
its message redacted once more; HTTP 204 short-circuits to the synthetic
`\x7bsuccess: true\x7d` marker without touching the body; any other 2xx body is
JSON-parsed, a parse failure being a `SyntaxError` whose message is rethrown
redacted. -/
def quoFetch (apiKey : String) (timeoutMs : Nat) (outcome : FetchOutcome) :
    Except String JSValue :=
  match outcome with
  | .aborted => .error (timedOutMsg timeoutMs)
  | .failed errName errMsg =>
    if errName == "AbortError" then .error (timedOutMsg timeoutMs)
    else .error (redactStr apiKey errMsg)
  | .success status statusText body =>
    if !statusOk status then
      .error (redactStr apiKey (httpErrMsg apiKey status statusText body))
    else if status == 204 then .ok (.jobj [("success", .jbool true)])
    else
      match jsonParse body with
      | some v => .ok v
      | none => .error (redactStr apiKey ("Unexpected token in JSON: " ++ body))

-- The `"Unexpected token in JSON: "` text above stands in for the runtime's
-- `SyntaxError` message, whose exact wording the source does not control; no
-- claim depends on it.

-- ===== Tool-call results and handler actions =====

/-- A tool-call result: the single text content block (whose text is
`Option String` because `JSON.stringify(undefined)` is `undefined`, not a
string) and the `isError` flag (absent ≡ false). -/
structure ToolCallResult where
  contentTexts : List (Option String)
  isError : Bool
deriving Repr

/-- How a handler shapes the successful gateway value into its content text:
the raw envelope (`JSON.stringify(result, null, 2)`), the unwrapped data
field (`JSON.stringify(result.data, null, 2)`), or a fixed plain message
that ignores the gateway value (`delete_contact`). -/
inductive Envelope where
  | verbatim
  | unwrapData
  | plainText (msg : String)
deriving Repr

def applyEnvelope : Envelope → JSValue → ToolCallResult
  | .verbatim, v => ⟨[stringifyPretty v], false⟩
  | .unwrapData, v => ⟨[stringifyPretty (getField v "data")], false⟩
  | .plainText m, _ => ⟨[some m], false⟩

/-- Model of `jsonToolResponse(payload, isError)` (lines 51–56). -/
def jsonToolResponse (payload : JSValue) (isError : Bool) : ToolCallResult :=
  ⟨[stringifyPretty payload], isError⟩

/-- What a handler does once its parameters are validated: either answer
immediately without any network call, or issue exactly one gateway request
and shape its result with the given envelope. -/
inductive HandlerAction where
  | respond (r : ToolCallResult)
  | call (method path : String) (query : List (String × String))
      (body : Option JSValue) (env : Envelope)

/-- Number of HTTP Gateway calls an action performs. -/
def gatewayCalls : HandlerAction → Nat
  | .respond _ => 0
  | .call _ _ _ _ _ => 1

/-- The error boundary of the surrounding dispatch layer.  Modelled from the
spec (§4.4: a `GatewayError` "is caught by the dispatch boundary and turned
into a `ToolCallResult` with the error flag set, carrying the (already
redacted) message"); the boundary itself lives in the MCP SDK dependency,
outside this repository's source. -/
def dispatchOutcome (apiKey : String) (timeoutMs : Nat) (a : HandlerAction)
    (outcome : FetchOutcome) : ToolCallResult :=
  match a with
  | .respond r => r
  | .call _ _ _ _ env =>
    match quoFetch apiKey timeoutMs outcome with
    | .ok v => applyEnvelope env v
    | .error e => ⟨[some e], true⟩

-- ===== Validation layer (the zod schemas, interpreted) =====

/-- Field schemas of the nested phone/email entry objects: all entry fields
in the source are strings — required, optional, or with a string default. -/
inductive FieldSchema where
  | fStr
  | fStrOpt
  | fStrDefault (d : String)
deriving Repr

/-- Parameter schemas as declared with zod: base kinds plus the `.optional()`
and `.default(…)` wrappers, in wrapping order (`popt (pdefault s d)` is
`s.default(d).optional()`). -/
inductive PSchema where
  | pstr
  | pstrLen (lo hi : Nat)
  | penum (vals : List String)
  | pnum (lo hi : Int)
  | pbool
  | parrStr
  | parrObj (fields : List (String × FieldSchema))
  | popt (s : PSchema)
  | pdefault (s : PSchema) (d : JSValue)
deriving Repr

def natOfDigits (ds : List Char) : Nat :=
  ds.foldl (fun n c => 10 * n + (c.toNat - '0'.toNat)) 0

/-- Numeric value of an integer literal.  The model restricts `z.number()`
inputs to integers — every numeric parameter a claim exercises is one. -/
def intLit? (lit : String) : Option Int :=
  match lit.data with
  | '-' :: ds => if ds ≠ [] ∧ ds.all Char.isDigit then some (-(natOfDigits ds : Int)) else none
  | ds => if ds ≠ [] ∧ ds.all Char.isDigit then some (natOfDigits ds : Int) else none

/-- zod parse of one entry field (`ZodDefault` substitutes its default for
`undefined` before the inner parse; a bare string schema rejects it). -/
def validateField : FieldSchema → JSValue → Option JSValue
  | .fStr, .jstr s => some (.jstr s)
  | .fStr, _ => none
  | .fStrOpt, .jundefined => some .jundefined
  | .fStrOpt, .jstr s => some (.jstr s)
  | .fStrOpt, _ => none
  | .fStrDefault d, .jundefined => some (.jstr d)
  | .fStrDefault _, .jstr s => some (.jstr s)
  | .fStrDefault _, _ => none

/-- zod object parse for an entry: declared fields only (unknown keys are
stripped), absent optional fields omitted from the output. -/
def validateEntryFields : List (String × FieldSchema) → JSValue →
    Option (List (String × JSValue))
  | [], _ => some []
  | (k, fs) :: rest, v =>
    match validateField fs (getField v k) with
    | none => none
    | some .jundefined => validateEntryFields rest v
    | some w => (validateEntryFields rest v).map (fun ws => (k, w) :: ws)

def allJStr : List JSValue → Bool
  | [] => true
  | .jstr _ :: xs => allJStr xs
  | _ :: _ => false

def validateEntryList (fields : List (String × FieldSchema)) :
    List JSValue → Option (List JSValue)
  | [] => some []
  | x :: xs =>
    match x with
    | .jobj _ =>
      match validateEntryFields fields x, validateEntryList fields xs with
      | some fs, some rest => some (.jobj fs :: rest)
      | _, _ => none
    | _ => none

/-- zod parse of one declared parameter.  The decisive subtlety for the
page-size parameters is faithful to `ZodOptional`: on `undefined` input the
`popt` wrapper returns `undefined` at once, *without* consulting a `pdefault`
underneath — `z.number().default(20).optional()` therefore never applies
the default. -/
def validateParam : PSchema → JSValue → Option JSValue
  | .pstr, .jstr s => some (.jstr s)
  | .pstr, _ => none
  | .pstrLen lo hi, .jstr s =>
    if lo ≤ s.length ∧ s.length ≤ hi then some (.jstr s) else none
  | .pstrLen _ _, _ => none
  | .penum vals, .jstr s => if vals.contains s then some (.jstr s) else none
  | .penum _, _ => none
  | .pnum lo hi, .jnum lit =>
    match intLit? lit with
    | some n => if lo ≤ n ∧ n ≤ hi then some (.jnum lit) else none
    | none => none
  | .pnum _ _, _ => none
  | .pbool, .jbool b => some (.jbool b)
  | .pbool, _ => none
  | .parrStr, .jarr xs => if allJStr xs then some (.jarr xs) else none
  | .parrStr, _ => none
  | .parrObj fields, .jarr xs => (validateEntryList fields xs).map .jarr
  | .parrObj _, _ => none
  | .popt _, .jundefined => some .jundefined
  | .popt s, v => validateParam s v
  | .pdefault s d, .jundefined => validateParam s d
  | .pdefault s _, v => validateParam s v

/-- zod object parse over the declared tool parameters: each declared key is
validated against the supplied argument object (missing keys read as
`undefined`); optional parameters that remain `undefined` are omitted from
the validated output, and undeclared keys are stripped. -/
def validateArgs : List (String × PSchema) → JSValue → Option (List (String × JSValue))
  | [], _ => some []
  | (k, sch) :: rest, args =>
    match validateParam sch (getField args k) with
    | none => none
    | some .jundefined => validateArgs rest args
    | some w => (validateArgs rest args).map (fun ws => (k, w) :: ws)

-- ===== The tool registry =====

inductive EKind where
  | everbatim
  | eunwrap
  | eplain
deriving Repr, DecidableEq

structure ToolDef where
  name : String
  params : List (String × PSchema)
  ekind : EKind

/-- Model of `z.number().min(1).max(hi).default(20).optional()`. -/
def maxResultsSchema (hi : Int) : PSchema := .popt (.pdefault (.pnum 1 hi) (.jnum "20"))

def contactEntryNewSchema : List (String × FieldSchema) :=
  [("name", .fStrDefault "primary"), ("value", .fStr)]

def contactEntryUpdSchema : List (String × FieldSchema) :=
  [("name", .fStr), ("value", .fStr), ("id", .fStrOpt)]

/-- The 21 registered tools, in source registration order, with their
declared parameter schemas and how their handler shapes the success
response. -/
def quoTools : List ToolDef := [
  ⟨"send_text",
    [("from", .pstr), ("to", .pstr), ("content", .pstrLen 1 1600),
     ("setInboxStatus", .popt (.penum ["done"]))], .eunwrap⟩,
  ⟨"list_messages",
    [("phoneNumberId", .pstr), ("participants", .parrStr),
     ("maxResults", maxResultsSchema 100), ("createdAfter", .popt .pstr),
     ("createdBefore", .popt .pstr), ("pageToken", .popt .pstr)], .everbatim⟩,
  ⟨"get_message", [("id", .pstr)], .eunwrap⟩,
  ⟨"list_conversations",
    [("phoneNumbers", .popt .parrStr), ("userId", .popt .pstr),
     ("createdAfter", .popt .pstr), ("createdBefore", .popt .pstr),
     ("updatedAfter", .popt .pstr), ("updatedBefore", .popt .pstr),
     ("excludeInactive", .popt .pbool), ("maxResults", maxResultsSchema 100),
     ("pageToken", .popt .pstr)], .everbatim⟩,
  ⟨"create_contact",
    [("firstName", .pstr), ("lastName", .popt .pstr), ("company", .popt .pstr),
     ("role", .popt .pstr), ("phoneNumbers", .popt (.parrObj contactEntryNewSchema)),
     ("emails", .popt (.parrObj contactEntryNewSchema))], .eunwrap⟩,
  ⟨"list_contacts",
    [("maxResults", maxResultsSchema 50), ("pageToken", .popt .pstr),
     ("externalIds", .popt .parrStr)], .everbatim⟩,
  ⟨"get_contact", [("id", .pstr)], .eunwrap⟩,
  ⟨"update_contact",
    [("id", .pstr), ("firstName", .popt .pstr), ("lastName", .popt .pstr),
     ("company", .popt .pstr), ("role", .popt .pstr),
     ("phoneNumbers", .popt (.parrObj contactEntryUpdSchema)),
     ("emails", .popt (.parrObj contactEntryUpdSchema))], .eunwrap⟩,
  ⟨"delete_contact", [("id", .pstr)], .eplain⟩,
  ⟨"list_calls",
    [("phoneNumberId", .pstr), ("participants", .parrStr),
     ("maxResults", maxResultsSchema 100), ("createdAfter", .popt .pstr),
     ("createdBefore", .popt .pstr), ("pageToken", .popt .pstr)], .everbatim⟩,
  ⟨"get_call", [("callId", .pstr)], .eunwrap⟩,
  ⟨"get_call_recordings", [("callId", .pstr)], .eunwrap⟩,
  ⟨"get_call_summary", [("callId", .pstr)], .eunwrap⟩,
  ⟨"get_call_transcription", [("callId", .pstr)], .eunwrap⟩,
  ⟨"get_voicemail", [("callId", .pstr)], .eunwrap⟩,
  ⟨"list_phone_numbers", [("userId", .popt .pstr)], .eunwrap⟩,
  ⟨"get_phone_number", [("phoneNumberId", .pstr)], .eunwrap⟩,
  ⟨"list_users", [], .eunwrap⟩,
  ⟨"get_user", [("userId", .pstr)], .eunwrap⟩,
  ⟨"get_contact_custom_fields", [], .eunwrap⟩,
  ⟨"list_webhooks", [], .eunwrap⟩]

def findTool (n : String) : Option ToolDef := quoTools.find? (fun t => t.name == n)

def toolHasParam (n p : String) : Bool :=
  match findTool n with
  | some t => t.params.any (fun q => q.1 == p)
  | none => false

def toolEKind (n : String) : Option EKind := (findTool n).map (fun t => t.ekind)

-- ===== Tool handlers (validated parameters → handler action) =====

/-- An optional argument as it reaches the query object: absent destructured
parameters are `undefined`. -/
def optQS : Option String → QueryVal
  | some s => .qstr s
  | none => .qundef

def optQN : Option Int → QueryVal
  | some n => .qnum n
  | none => .qundef

def optQA : Option (List String) → QueryVal
  | some xs => .qarr xs
  | none => .qundef

def optQB : Option Bool → QueryVal
  | some b => .qbool b
  | none => .qundef

structure ListMessagesParams where
  phoneNumberId : String
  participants : List String
  maxResults : Option Int
  createdAfter : Option String
  createdBefore : Option String
  pageToken : Option String

/-- Model of `list_messages` handler (lines 142–147). -/
def list_messages (p : ListMessagesParams) : HandlerAction :=
  .call "GET" "/messages"
    (buildQuery
      [("phoneNumberId", .qstr p.phoneNumberId),
       ("participants", .qarr p.participants),
       ("maxResults", optQN p.maxResults),
       ("createdAfter", optQS p.createdAfter),
       ("createdBefore", optQS p.createdBefore),
       ("pageToken", optQS p.pageToken)])
    none .verbatim

structure ListConversationsParams where
  phoneNumbers : Option (List String)
  userId : Option String
  createdAfter : Option String
  createdBefore : Option String
  updatedAfter : Option String
  updatedBefore : Option String
  excludeInactive : Option Bool
  maxResults : Option Int
  pageToken : Option String

/-- Model of `list_conversations` handler (lines 178–183). -/
def list_conversations (p : ListConversationsParams) : HandlerAction :=
  .call "GET" "/conversations"
    (buildQuery
      [("phoneNumbers", optQA p.phoneNumbers),
       ("userId", optQS p.userId),
       ("createdAfter", optQS p.createdAfter),
       ("createdBefore", optQS p.createdBefore),
       ("updatedAfter", optQS p.updatedAfter),
       ("updatedBefore", optQS p.updatedBefore),
       ("excludeInactive", optQB p.excludeInactive),
       ("maxResults", optQN p.maxResults),
       ("pageToken", optQS p.pageToken)])
    none .verbatim

structure ListContactsParams where
  maxResults : Option Int
  pageToken : Option String
  externalIds : Option (List String)

/-- Model of `list_contacts` handler (lines 231–236). -/
def list_contacts (p : ListContactsParams) : HandlerAction :=
  .call "GET" "/contacts"
    (buildQuery
      [("maxResults", optQN p.maxResults),
       ("pageToken", optQS p.pageToken),
       ("externalIds", optQA p.externalIds)])
    none .verbatim

/-- Model of `list_calls` handler (lines 324–329); same parameter shape as
`list_messages`, against `/calls`. -/
def list_calls (p : ListMessagesParams) : HandlerAction :=
  .call "GET" "/calls"
    (buildQuery
      [("phoneNumberId", .qstr p.phoneNumberId),
       ("participants", .qarr p.participants),
       ("maxResults", optQN p.maxResults),
       ("createdAfter", optQS p.createdAfter),
       ("createdBefore", optQS p.createdBefore),
       ("pageToken", optQS p.pageToken)])
    none .verbatim

/-- Model of `get_message` handler (lines 156–159). -/
def get_message (id : String) : HandlerAction :=
  .call "GET" ("/messages/" ++ id) [] none .unwrapData

/-- Model of `get_contact` handler (lines 245–248). -/
def get_contact (id : String) : HandlerAction :=
  .call "GET" ("/contacts/" ++ id) [] none .unwrapData

/-- Model of `get_call` handler (lines 338–341). -/
def get_call (callId : String) : HandlerAction :=
  .call "GET" ("/calls/" ++ callId) [] none .unwrapData

/-- Model of `list_phone_numbers` handler (lines 400–405): the query object is
`userId ? \x7b userId \x7d : \x7b\x7d`, so a missing — or falsy, i.e. empty —
`userId` sends no query at all. -/
def list_phone_numbers (userId : Option String) : HandlerAction :=
  .call "GET" "/phone-numbers"
    (buildQuery
      (match userId with
       | some u => if u.isEmpty then [] else [("userId", .qstr u)]
       | none => []))
    none .unwrapData

/-- Model of `list_users` handler (lines 426–429). -/
def list_users : HandlerAction :=
  .call "GET" "/users" [] none .unwrapData

/-- Model of `list_webhooks` handler (lines 462–465). -/
def list_webhooks : HandlerAction :=
  .call "GET" "/webhooks" [] none .unwrapData

/-- Model of `delete_contact` handler (lines 305–308): the gateway value is ignored
and a fixed plain message is returned. -/
def delete_contact (id : String) : HandlerAction :=
  .call "DELETE" ("/contacts/" ++ id) [] none (.plainText ("Contact " ++ id ++ " deleted."))

structure ContactEntry where
  entryName : String
  entryValue : String
  entryId : Option String

/-- A validated phone/email entry as zod emits it: declared keys in schema
order, the optional `id` present only when supplied. -/
def entryToJS (e : ContactEntry) : JSValue :=
  .jobj ([("name", .jstr e.entryName), ("value", .jstr e.entryValue)] ++
    (match e.entryId with
     | some i => [("id", .jstr i)]
     | none => []))

structure UpdateContactParams where
  id : String
  firstName : Option String
  lastName : Option String
  company : Option String
  role : Option String
  phoneNumbers : Option (List ContactEntry)
  emails : Option (List ContactEntry)

/-- The `defaultFields` object assembled field by field (lines 272–278):
a key is added exactly when the parameter is not `undefined`. -/
def updateContactFields (p : UpdateContactParams) : List (String × JSValue) :=
  (match p.firstName with | some s => [("firstName", JSValue.jstr s)] | none => []) ++
  (match p.lastName with | some s => [("lastName", JSValue.jstr s)] | none => []) ++
  (match p.company with | some s => [("company", JSValue.jstr s)] | none => []) ++
  (match p.role with | some s => [("role", JSValue.jstr s)] | none => []) ++
  (match p.phoneNumbers with
   | some es => [("phoneNumbers", JSValue.jarr (es.map entryToJS))]
   | none => []) ++
  (match p.emails with
   | some es => [("emails", JSValue.jarr (es.map entryToJS))]
   | none => [])

/-- The early-exit error payload of `update_contact` (lines 280–288). -/
def updateContactNoFieldsPayload : JSValue :=
  .jobj [("error", .jobj
    [("message", .jstr "No fields provided for update_contact"),
     ("details", .jstr
       "Pass at least one of: firstName, lastName, company, role, phoneNumbers, emails.")])]

/-- Model of `update_contact` handler (lines 271–296): with no updatable field
supplied it answers an error result without calling the gateway; otherwise
it PATCHes the assembled `defaultFields`. -/
def update_contact (p : UpdateContactParams) : HandlerAction :=
  let defaultFields := updateContactFields p
  if defaultFields.isEmpty then
    .respond (jsonToolResponse updateContactNoFieldsPayload true)
  else
    .call "PATCH" ("/contacts/" ++ p.id) []
      (some (.jobj [("defaultFields", .jobj defaultFields)])) .unwrapData

-- ===== Query construction lemmas =====

/-- Declarative per-entry expansion of one query parameter, as the spec words
it: arrays become one repeated key per element in order, scalars one entry,
null/undefined nothing. -/
def queryExpansion (k : String) : QueryVal → List (String × String)
  | .qstr s => [(k, s)]
  | .qnum n => [(k, toString n)]
  | .qbool b => [(k, if b then "true" else "false")]
  | .qarr xs => xs.map (fun x => (k, x))
  | .qnull => []
  | .qundef => []

theorem queryExpansion_key {k : String} {v : QueryVal} {q : String × String}
    (hq : q ∈ queryExpansion k v) : q.1 = k := by
  cases v with
  | qstr s => simp [queryExpansion] at hq; simp [hq]
  | qnum n => simp [queryExpansion] at hq; simp [hq]
  | qbool b => simp [queryExpansion] at hq; simp [hq]
  | qarr xs =>
    simp only [queryExpansion, List.mem_map] at hq
    obtain ⟨x, _, hx⟩ := hq
    simp [← hx]
  | qnull => simp [queryExpansion] at hq
  | qundef => simp [queryExpansion] at hq

theorem spSet_eq_append (ps : List (String × String)) (k v : String)
    (h : ∀ q ∈ ps, q.1 ≠ k) : spSet ps k v = ps ++ [(k, v)] := by
  induction ps with
  | nil => rfl
  | cons p rest ih =>
    have hp : p.1 ≠ k := h p (List.mem_cons_self p rest)
    simp only [spSet, beq_iff_eq, if_neg hp, List.cons_append]
    rw [ih (fun q hq => h q (List.mem_cons_of_mem p hq))]

theorem foldl_spAppend (k : String) (xs : List String) (ps : List (String × String)) :
    xs.foldl (fun a x => spAppend a k x) ps = ps ++ xs.map (fun x => (k, x)) := by
  induction xs generalizing ps with
  | nil => simp
  | cons x rest ih =>
    rw [List.foldl_cons, ih (spAppend ps k x)]
    simp [spAppend]

/-- The imperative query loop, started from accumulator `ps`, appends the
declarative expansions when the keys still to come clash neither with each
other nor with `ps`. -/
theorem buildQuery_go (entries : List (String × QueryVal))
    (ps : List (String × String))
    (hdisj : ∀ e ∈ entries, ∀ q ∈ ps, q.1 ≠ e.1)
    (hnd : (entries.map Prod.fst).Nodup) :
    entries.foldl
      (fun ps e =>
        match e.2 with
        | .qundef => ps
        | .qnull => ps
        | .qarr xs => xs.foldl (fun ps' x => spAppend ps' e.1 x) ps
        | v =>
          match queryScalarString v with
          | some s => spSet ps e.1 s
          | none => ps)
      ps =
      ps ++ entries.flatMap (fun e => queryExpansion e.1 e.2) := by
  induction entries generalizing ps with
  | nil => simp
  | cons e rest ih =>
    have hstep :
        (match e.2 with
         | .qundef => ps
         | .qnull => ps
         | .qarr xs => xs.foldl (fun ps' x => spAppend ps' e.1 x) ps
         | v =>
           match queryScalarString v with
           | some s => spSet ps e.1 s
           | none => ps) = ps ++ queryExpansion e.1 e.2 := by
      have hke : ∀ q ∈ ps, q.1 ≠ e.1 := fun q hq =>
        hdisj e (List.mem_cons_self e rest) q hq
      cases e with
      | mk k v =>
        cases v with
        | qstr s => simpa [queryExpansion, queryScalarString] using spSet_eq_append ps k s hke
        | qnum n =>
          simpa [queryExpansion, queryScalarString] using spSet_eq_append ps k (toString n) hke
        | qbool b =>
          simpa [queryExpansion, queryScalarString] using
            spSet_eq_append ps k (if b then "true" else "false") hke
        | qarr xs => simpa [queryExpansion] using foldl_spAppend k xs ps
        | qnull => simp [queryExpansion]
        | qundef => simp [queryExpansion]
    rw [List.foldl_cons, hstep]
    have hnd' : (rest.map Prod.fst).Nodup := (List.nodup_cons.mp hnd).2
    have hkey : e.1 ∉ rest.map Prod.fst := (List.nodup_cons.mp hnd).1
    have hdisj' : ∀ e' ∈ rest, ∀ q ∈ ps ++ queryExpansion e.1 e.2, q.1 ≠ e'.1 := by
      intro e' he' q hq
      rcases List.mem_append.mp hq with hq | hq
      · exact hdisj e' (List.mem_cons_of_mem e he') q hq
      · have : q.1 = e.1 := queryExpansion_key hq
        rw [this]
        intro hcon
        exact hkey (hcon ▸ List.mem_map_of_mem Prod.fst he')
    rw [ih (ps ++ queryExpansion e.1 e.2) hdisj' hnd']
    simp

/-- Under distinct keys — every call site passes an object literal, whose
keys are distinct by construction — the imperative loop equals the
declarative expansion. -/
theorem buildQuery_eq_flatMap (entries : List (String × QueryVal))
    (hnd : (entries.map Prod.fst).Nodup) :
    buildQuery entries = entries.flatMap (fun e => queryExpansion e.1 e.2) := by
  simpa using buildQuery_go entries [] (by simp) hnd

def actionQuery : HandlerAction → List (String × String)
  | .respond _ => []
  | .call _ _ q _ _ => q

theorem filter_key_map_ne {k t : String} (h : (k == t) = false) (xs : List String) :
    ((xs.map fun x => (k, x)).filter fun e => e.1 == t) = [] := by
  induction xs with
  | nil => rfl
  | cons x r ih => simp only [List.map_cons, List.filter_cons, h, Bool.false_eq_true,
      if_false, ih]

-- ===== Claims =====

/-- C7: for every `queryParams` mapping given to `quoFetch` (a JavaScript
object literal, so its keys are distinct), an array-valued entry produces one
repeated query key per array element in the original order, a scalar
non-null/non-undefined entry is set exactly once, and every null or undefined
entry is omitted from the query entirely. -/
theorem quoFetch_queryParams_expansion (entries : List (String × QueryVal))
    (hnd : (entries.map Prod.fst).Nodup) :
    buildQuery entries = entries.flatMap (fun e => queryExpansion e.1 e.2) ∧
    (∀ k xs, queryExpansion k (QueryVal.qarr xs) = xs.map fun x => (k, x)) ∧
    (∀ k s, queryExpansion k (QueryVal.qstr s) = [(k, s)]) ∧
    (∀ k n, queryExpansion k (QueryVal.qnum n) = [(k, toString n)]) ∧
    (∀ k b, queryExpansion k (QueryVal.qbool b) = [(k, if b then "true" else "false")]) ∧
    (∀ k, queryExpansion k QueryVal.qnull = [] ∧ queryExpansion k QueryVal.qundef = []) :=
  ⟨buildQuery_eq_flatMap entries hnd, fun _ _ => rfl, fun _ _ => rfl, fun _ _ => rfl,
   fun _ _ => rfl, fun _ => ⟨rfl, rfl⟩⟩

theorem quoFetch_queryParams_expansion_witness :
    buildQuery
      [("participants", .qarr ["+15550100", "+15550111"]),
       ("maxResults", .qnum 20), ("pageToken", .qundef), ("userId", .qnull)] =
      [("participants", "+15550100"), ("participants", "+15550111"),
       ("maxResults", "20")] :=
  ((quoFetch_queryParams_expansion
      [("participants", .qarr ["+15550100", "+15550111"]),
       ("maxResults", .qnum 20), ("pageToken", .qundef), ("userId", .qnull)]
      (by decide)).1).trans rfl

/-- C8: the `pageToken` string supplied to `list_messages` reaches the
outbound request's query byte-for-byte as the only `pageToken` entry — pure
passthrough, no transformation. -/
theorem list_messages_pageToken_passthrough (p : ListMessagesParams) (s : String)
    (h : p.pageToken = some s) :
    ((actionQuery (list_messages p)).filter fun e => e.1 == "pageToken") =
      [("pageToken", s)] := by
  obtain ⟨pn, parts, mr, ca, cb, pt⟩ := p
  simp only at h
  subst h
  unfold list_messages actionQuery
  rw [buildQuery_eq_flatMap _ (by simp)]
  simp only [List.flatMap_cons, List.flatMap_nil, List.append_nil, List.filter_append,
    queryExpansion, optQS, optQN]
  rw [filter_key_map_ne (by decide) parts]
  cases mr <;> cases ca <;> cases cb <;>
    simp [queryExpansion, List.filter_cons, List.filter_nil]

theorem list_messages_pageToken_passthrough_witness :
    ((actionQuery (list_messages
        ⟨"PN1", ["+15550100"], none, none, none, some "opaque-token-π"⟩)).filter
          fun e => e.1 == "pageToken") =
      [("pageToken", "opaque-token-π")] :=
  list_messages_pageToken_passthrough
    ⟨"PN1", ["+15550100"], none, none, none, some "opaque-token-π"⟩ "opaque-token-π" rfl

/-- C4: `update_contact` with all six optional updatable fields absent
returns the fixed error result — error flag set, text stating at least one
field is required — and performs zero HTTP Gateway calls, whatever the
network would have answered. -/
theorem update_contact_no_fields (id : String) :
    update_contact ⟨id, none, none, none, none, none, none⟩ =
      .respond (jsonToolResponse updateContactNoFieldsPayload true) ∧
    gatewayCalls (update_contact ⟨id, none, none, none, none, none, none⟩) = 0 ∧
    (jsonToolResponse updateContactNoFieldsPayload true).isError = true ∧
    (match (jsonToolResponse updateContactNoFieldsPayload true).contentTexts with
     | [some t] => containsSub "at least one" t
     | _ => false) = true ∧
    (∀ apiKey timeoutMs outcome,
      dispatchOutcome apiKey timeoutMs
          (update_contact ⟨id, none, none, none, none, none, none⟩) outcome =
        jsonToolResponse updateContactNoFieldsPayload true) :=
  ⟨rfl, rfl, rfl, by decide, fun _ _ _ => rfl⟩

/-- C9: a 204 response makes `quoFetch` return the synthetic
`\x7bsuccess: true\x7d` marker for any body text whatsoever (the body is never
parsed), and `delete_contact` then yields a non-error result with the fixed
text `Contact <id> deleted.`. -/
theorem quoFetch_204_marker (apiKey : String) (timeoutMs : Nat)
    (statusText body id : String) :
    quoFetch apiKey timeoutMs (.success 204 statusText body) =
      .ok (.jobj [("success", .jbool true)]) ∧
    dispatchOutcome apiKey timeoutMs (delete_contact id)
        (.success 204 statusText body) =
      ⟨[some ("Contact " ++ id ++ " deleted.")], false⟩ :=
  ⟨rfl, rfl⟩

/-- C10: every handler that unwraps `result.data` turns a 2xx value without a
`data` field — the 204 marker included — into a non-error result whose single
content text is `JSON.stringify(undefined)`, i.e. not a string (`none`). -/
theorem unwrapData_missing_data (v : JSValue) (h : getField v "data" = .jundefined) :
    applyEnvelope .unwrapData v = ⟨[none], false⟩ ∧
    (["send_text", "get_message", "get_contact", "get_call", "get_call_recordings",
      "get_call_summary", "get_call_transcription", "get_voicemail",
      "get_phone_number", "get_user", "list_phone_numbers", "list_users",
      "get_contact_custom_fields", "list_webhooks"].all fun n =>
        toolEKind n == some .eunwrap) = true ∧
    (∀ apiKey timeoutMs callId statusText body,
      dispatchOutcome apiKey timeoutMs (get_call callId)
          (.success 204 statusText body) = ⟨[none], false⟩) := by
  refine ⟨?_, by decide, fun _ _ _ _ _ => rfl⟩
  show (⟨[stringifyPretty (getField v "data")], false⟩ : ToolCallResult) = ⟨[none], false⟩
  rw [h]
  rfl

theorem unwrapData_missing_data_witness :
    applyEnvelope .unwrapData (.jobj [("success", .jbool true)]) = ⟨[none], false⟩ :=
  (unwrapData_missing_data (.jobj [("success", .jbool true)]) rfl).1

/-- C2 counterexample: the claim quantifies over all seven list tools, but
`list_phone_numbers` declares neither a page-size nor a page-token parameter
and unwraps the `data` field instead of returning the envelope verbatim
(`list_users` and `list_webhooks` likewise). -/
theorem list_tools_pagination_counterexample :
    (["list_messages", "list_conversations", "list_contacts", "list_calls",
      "list_phone_numbers", "list_users", "list_webhooks"].all fun n =>
        toolHasParam n "maxResults" && toolHasParam n "pageToken" &&
          (toolEKind n == some .everbatim)) = false ∧
    toolHasParam "list_phone_numbers" "maxResults" = false ∧
    toolHasParam "list_phone_numbers" "pageToken" = false ∧
    toolEKind "list_phone_numbers" = some .eunwrap := by
  exact ⟨by decide, by decide, by decide, rfl⟩

/-- C2 amended: the four paginated list tools (`list_messages`,
`list_conversations`, `list_contacts`, `list_calls`) accept `maxResults` and
`pageToken` and return the response envelope verbatim — witnessed on
`list_messages`, whose success text is the pretty-printed full response
value; the other three list tools accept no pagination parameters and unwrap
`data`. -/
theorem list_tools_pagination (apiKey : String) (timeoutMs : Nat)
    (p : ListMessagesParams) (status : Nat) (stText body : String) (v : JSValue)
    (hok : statusOk status = true) (h204 : (status == 204) = false)
    (hparse : jsonParse body = some v) :
    (["list_messages", "list_conversations", "list_contacts", "list_calls"].all
      fun n =>
        toolHasParam n "maxResults" && toolHasParam n "pageToken" &&
          (toolEKind n == some .everbatim)) = true ∧
    (["list_phone_numbers", "list_users", "list_webhooks"].all fun n =>
        !toolHasParam n "maxResults" && !toolHasParam n "pageToken" &&
          (toolEKind n == some .eunwrap)) = true ∧
    dispatchOutcome apiKey timeoutMs (list_messages p)
        (.success status stText body) =
      ⟨[stringifyPretty v], false⟩ := by
  refine ⟨by decide, by decide, ?_⟩
  simp only [dispatchOutcome, list_messages, quoFetch, hok, Bool.not_true,
    Bool.false_eq_true, if_false, h204, hparse, applyEnvelope]

theorem list_tools_pagination_witness :
    dispatchOutcome "EXAMPLEKEY" 30000
        (list_messages ⟨"PN1", ["+15550100"], none, none, none, none⟩)
        (.success 200 "OK" "\x7b\"data\":[],\"nextPageToken\":\"np7\"\x7d") =
      ⟨[stringifyPretty (.jobj [("data", .jarr []), ("nextPageToken", .jstr "np7")])],
        false⟩ :=
  (list_tools_pagination "EXAMPLEKEY" 30000
      ⟨"PN1", ["+15550100"], none, none, none, none⟩ 200 "OK"
      "\x7b\"data\":[],\"nextPageToken\":\"np7\"\x7d"
      (.jobj [("data", .jarr []), ("nextPageToken", .jstr "np7")])
      (by decide) (by decide) rfl).2.2

/-- C3: evaluation at the failing input.  The schema chain is
`z.number().min(1).max(100).default(20).optional()`; because the `optional`
wrapper is outermost, an omitted `maxResults` validates to `undefined` — the
default 20 is never substituted — so the handler receives `undefined` and the
outbound query omits `maxResults` instead of carrying `maxResults=20`.  The
declared range bounds (1–100, 1–50 for contacts) are enforced for supplied
values. -/
theorem maxResults_default_never_applied :
    validateParam (maxResultsSchema 100) .jundefined = some .jundefined ∧
    validateArgs (((findTool "list_messages").map ToolDef.params).getD [])
        (.jobj [("phoneNumberId", .jstr "PN1"),
                ("participants", .jarr [.jstr "+15550100"])]) =
      some [("phoneNumberId", .jstr "PN1"),
            ("participants", .jarr [.jstr "+15550100"])] ∧
    actionQuery (list_messages ⟨"PN1", ["+15550100"], none, none, none, none⟩) =
      [("phoneNumberId", "PN1"), ("participants", "+15550100")] ∧
    validateParam (maxResultsSchema 100) (.jnum "20") = some (.jnum "20") ∧
    validateParam (maxResultsSchema 100) (.jnum "0") = none ∧
    validateParam (maxResultsSchema 100) (.jnum "101") = none ∧
    validateParam (maxResultsSchema 100) (.jnum "100") = some (.jnum "100") ∧
    validateParam (maxResultsSchema 50) (.jnum "51") = none ∧
    validateParam (maxResultsSchema 50) (.jnum "50") = some (.jnum "50") :=
  ⟨rfl, rfl, rfl, rfl, rfl, rfl, rfl, rfl, rfl⟩

theorem replaceFirstL_at (a pat b repl : List Char)
    (hfirst : ∀ i < a.length, pat.isPrefixOf ((a ++ pat ++ b).drop i) = false) :
    replaceFirstL (a ++ pat ++ b) pat repl = a ++ repl ++ b := by
  induction a with
  | nil =>
    rw [List.nil_append, List.nil_append, replaceFirstL.eq_def]
    have hpre : pat.isPrefixOf (pat ++ b) = true := by
      rw [ List.isPrefixOf_iff_prefix]
      exact List.prefix_append pat b
    rw [if_pos hpre, List.drop_left]
  | cons c a' ih =>
    have h0 : pat.isPrefixOf (c :: (a' ++ pat ++ b)) = false := by
      have := hfirst 0 (by simp)
      simpa [List.cons_append] using this
    have hshape : (c :: a') ++ pat ++ b = c :: (a' ++ pat ++ b) := by
      simp
    rw [hshape, replaceFirstL.eq_def, if_neg (by rw [h0]; exact Bool.false_ne_true)]
    have hfirst' : ∀ i < a'.length, pat.isPrefixOf ((a' ++ pat ++ b).drop i) = false := by
      intro i hi
      have := hfirst (i + 1) (by simpa using Nat.succ_lt_succ hi)
      simpa [List.cons_append] using this
    show c :: replaceFirstL (a' ++ pat ++ b) pat repl = (c :: a') ++ repl ++ b
    rw [ih hfirst']
    simp

/-- C1 counterexample: with the key configured as `SECRETKEY` and the input
string `SECRETKEY SECRETKEY`, the Secret Redactor output still contains the
literal key — `String.prototype.replace` with a string pattern replaces only
the first occurrence, and no Authorization pattern matches here. -/
theorem redactSecrets_second_occurrence_counterexample :
    redactSecrets "SECRETKEY" (.jstr "SECRETKEY SECRETKEY") =
      .jstr "***REDACTED_API_KEY*** SECRETKEY" ∧
    containsSub "SECRETKEY" "***REDACTED_API_KEY*** SECRETKEY" = true :=
  ⟨rfl, by decide⟩

/-- C1 amended: the Secret Redactor replaces the *first* literal occurrence
of the configured key with the fixed placeholder (later occurrences are left
to the separate Authorization-pattern pass, which need not cover them):
whenever the first occurrence of the key in a string input starts at
position `|a|`, the key segment itself is replaced and the surroundings are
handed unchanged to the Authorization pass. -/
theorem redactSecrets_replaces_first (apiKey a b : String)
    (hfirst : ∀ i < a.length,
      apiKey.data.isPrefixOf (((a ++ apiKey ++ b) : String).data.drop i) = false) :
    redactSecrets apiKey (.jstr (a ++ apiKey ++ b)) =
      .jstr (authReplaceStr (a ++ redactedKeyToken ++ b)) := by
  show JSValue.jstr (redactStr apiKey (a ++ apiKey ++ b)) = _
  unfold redactStr
  have hd : (a ++ apiKey ++ b).data = a.data ++ apiKey.data ++ b.data := by
    simp
  have hd2 : (a ++ redactedKeyToken ++ b).data =
      a.data ++ redactedKeyToken.data ++ b.data := by
    simp
  have hfirst' : ∀ i < a.data.length,
      apiKey.data.isPrefixOf ((a.data ++ apiKey.data ++ b.data).drop i) = false := by
    intro i hi
    have := hfirst i hi
    rwa [hd] at this
  congr 1
  rw [hd, replaceFirstL_at a.data apiKey.data b.data redactedKeyToken.data hfirst',
    ← hd2]

theorem redactSecrets_replaces_first_witness :
    redactSecrets "KEY" (.jstr "xxKEYyyKEYzz") =
      .jstr (authReplaceStr ("xx" ++ redactedKeyToken ++ "yyKEYzz")) :=
  redactSecrets_replaces_first "KEY" "xx" "yyKEYzz" (by decide)

theorem isEmpty_false_of_ne (b : String) (h : b ≠ "") : b.isEmpty = false := by
  rw [Bool.eq_false_iff]
  intro hc
  exact h ((String.isEmpty_iff b).mp hc)

/-- C5 counterexample: the claim's priority rule says a body whose top-level
`message` field is the string `" "` yields that string as the detail, but the
code additionally requires the field to be non-blank after trimming and falls
back to the raw body text. -/
theorem extractError_blank_message_counterexample :
    extractErrorMessage "\x7b\"message\":\" \"\x7d" = "\x7b\"message\":\" \"\x7d" ∧
    "\x7b\"message\":\" \"\x7d" ≠ " " ∧
    quoFetch "SECRETKEY" 30000 (.success 404 "Not Found" "\x7b\"message\":\" \"\x7d") =
      .error "Quo API 404 Not Found: \x7b\"message\":\" \"\x7d" ∧
    "Quo API 404 Not Found: \x7b\"message\":\" \"\x7d" ≠
      "Quo API 404 Not Found:  " :=
  ⟨rfl, by decide, rfl, by decide⟩

/-- C5 amended: on a non-2xx status `quoFetch` fails with
`Quo API <status> <statusText>: <detail>` (the whole message passed through
the redactor once more, as the catch block rewraps it), where the detail is,
in priority order, the parsed body's non-blank top-level `message` string
field, else its non-blank `error.message` string field, else its non-blank
`error` string field, else the raw body text when parsing fails or no field
matches, else `No response body` for an empty body; in particular a 404 with
body `\x7b"message":"Contact not found"\x7d` yields an error result whose
text contains `404` and `Contact not found`. -/
theorem quoFetch_http_error (apiKey : String) (timeoutMs status : Nat)
    (stText body : String) (hne : statusOk status = false) :
    quoFetch apiKey timeoutMs (.success status stText body) =
      .error (redactStr apiKey ("Quo API " ++ Nat.repr status ++ " " ++ stText ++ ": " ++
        redactStr apiKey (extractErrorMessage body))) ∧
    extractErrorMessage "" = "No response body" ∧
    (∀ b : String, b ≠ "" → jsonParse b = none → extractErrorMessage b = b) ∧
    (∀ b v m, b ≠ "" → jsonParse b = some v →
      nonBlankStr (getField v "message") = some m → extractErrorMessage b = m) ∧
    (∀ b v m, b ≠ "" → jsonParse b = some v →
      nonBlankStr (getField v "message") = none →
      nonBlankStr (getField (getField v "error") "message") = some m →
      extractErrorMessage b = m) ∧
    (∀ b v m, b ≠ "" → jsonParse b = some v →
      nonBlankStr (getField v "message") = none →
      nonBlankStr (getField (getField v "error") "message") = none →
      nonBlankStr (getField v "error") = some m → extractErrorMessage b = m) ∧
    (∀ b v, b ≠ "" → jsonParse b = some v →
      nonBlankStr (getField v "message") = none →
      nonBlankStr (getField (getField v "error") "message") = none →
      nonBlankStr (getField v "error") = none → extractErrorMessage b = b) ∧
    (∀ tq, dispatchOutcome "EXAMPLEKEY" tq (get_contact "missing-id")
        (.success 404 "Not Found" "\x7b\"message\":\"Contact not found\"\x7d") =
      ⟨[some "Quo API 404 Not Found: Contact not found"], true⟩) ∧
    containsSub "404" "Quo API 404 Not Found: Contact not found" = true ∧
    containsSub "Contact not found" "Quo API 404 Not Found: Contact not found" = true := by
  refine ⟨?_, rfl, ?_, ?_, ?_, ?_, ?_, fun tq => rfl, by decide, by decide⟩
  · simp [quoFetch, hne, httpErrMsg]
  · intro b hb hp
    simp [extractErrorMessage, isEmpty_false_of_ne b hb, hp]
  · intro b v m hb hp hm
    simp [extractErrorMessage, isEmpty_false_of_ne b hb, hp, hm]
  · intro b v m hb hp hm1 hm2
    simp [extractErrorMessage, isEmpty_false_of_ne b hb, hp, hm1, hm2]
  · intro b v m hb hp hm1 hm2 hm3
    simp [extractErrorMessage, isEmpty_false_of_ne b hb, hp, hm1, hm2, hm3]
  · intro b v hb hp hm1 hm2 hm3
    simp [extractErrorMessage, isEmpty_false_of_ne b hb, hp, hm1, hm2, hm3]

theorem quoFetch_http_error_witness :
    quoFetch "EXAMPLEKEY" 30000 (.success 500 "Internal Server Error" "oops") =
      .error (redactStr "EXAMPLEKEY" ("Quo API " ++ Nat.repr 500 ++ " " ++
        "Internal Server Error" ++ ": " ++
        redactStr "EXAMPLEKEY" (extractErrorMessage "oops"))) :=
  (quoFetch_http_error "EXAMPLEKEY" 30000 500 "Internal Server Error" "oops"
    (by decide)).1

theorem containsSubL_suffix (n a : List Char) : containsSubL n (a ++ n) = true := by
  induction a with
  | nil =>
    rw [List.nil_append, containsSubL.eq_def]
    have hp : n.isPrefixOf n = true := by
      rw [ List.isPrefixOf_iff_prefix]
    simp [hp]
  | cons c a' ih =>
    rw [List.cons_append, containsSubL.eq_def]
    simp [ih]

/-- C6 counterexample: the claim's uniqueness half ("no request outcome other
than an abort produces this message") fails — a transport failure whose own
error text happens to equal the timeout string is rethrown verbatim after
redaction, indistinguishable from a timeout. -/
theorem timeout_message_counterexample :
    quoFetch "SECRETKEY" 30000 .aborted = .error (timedOutMsg 30000) ∧
    quoFetch "SECRETKEY" 30000
        (.failed "TypeError" "Quo API request timed out after 30000ms") =
      .error "Quo API request timed out after 30000ms" ∧
    timedOutMsg 30000 = "Quo API request timed out after 30000ms" :=
  ⟨rfl, rfl, rfl⟩

/-- C6 amended: an aborted (timed-out) request fails with the message
`Quo API request timed out after <timeout>ms`, which names the configured
duration; the message arises from an abort and otherwise only from a
non-abort failure whose own redacted error text is literally that string
(the exact condition is characterised below). -/
theorem quoFetch_timeout_distinguishable (apiKey : String) (timeoutMs : Nat)
    (outcome : FetchOutcome) :
    quoFetch apiKey timeoutMs .aborted = .error (timedOutMsg timeoutMs) ∧
    containsSub (Nat.repr timeoutMs ++ "ms") (timedOutMsg timeoutMs) = true ∧
    (quoFetch apiKey timeoutMs outcome = .error (timedOutMsg timeoutMs) ↔
      (outcome = .aborted ∨
        (∃ n m, outcome = .failed n m ∧
          (n = "AbortError" ∨ redactStr apiKey m = timedOutMsg timeoutMs)) ∨
        (∃ status stText body, outcome = .success status stText body ∧
          ((statusOk status = false ∧
              redactStr apiKey (httpErrMsg apiKey status stText body) =
                timedOutMsg timeoutMs) ∨
            (statusOk status = true ∧ (status == 204) = false ∧
              jsonParse body = none ∧
              redactStr apiKey ("Unexpected token in JSON: " ++ body) =
                timedOutMsg timeoutMs))))) := by
  refine ⟨rfl, ?_, ?_⟩
  · show containsSubL (Nat.repr timeoutMs ++ "ms").data (timedOutMsg timeoutMs).data = true
    have hdata : (timedOutMsg timeoutMs).data =
        "Quo API request timed out after ".data ++ (Nat.repr timeoutMs ++ "ms").data := by
      simp [timedOutMsg, List.append_assoc]
    rw [hdata]
    exact containsSubL_suffix _ _
  · cases outcome with
    | aborted => simp [quoFetch]
    | failed n m =>
      by_cases hn : n = "AbortError"
      · simp only [quoFetch, hn, beq_self_eq_true, if_true, Except.error.injEq,
          true_iff]
        exact Or.inr (Or.inl ⟨"AbortError", m, rfl, Or.inl rfl⟩)
      · have hnb : (n == "AbortError") = false := by
          simp [hn]
        simp only [quoFetch, hnb, Bool.false_eq_true, if_false, Except.error.injEq]
        constructor
        · intro h
          exact Or.inr (Or.inl ⟨n, m, rfl, Or.inr h⟩)
        · rintro (hcon | ⟨n', m', heq, hcase⟩ | ⟨s', t', b', hcon, _⟩)
          · cases hcon
          · injection heq with h1 h2
            subst h1
            subst h2
            rcases hcase with h | h
            · exact absurd h hn
            · exact h
          · cases hcon
    | success status stText body =>
      cases hok : statusOk status with
      | false =>
        simp only [quoFetch, hok, Bool.not_false, if_true, Except.error.injEq]
        constructor
        · intro h
          exact Or.inr (Or.inr ⟨status, stText, body, rfl, Or.inl ⟨hok, h⟩⟩)
        · rintro (hcon | ⟨n', m', hcon, _⟩ | ⟨s', t', b', heq, hcase⟩)
          · cases hcon
          · cases hcon
          · injection heq with h1 h2 h3
            subst h1
            subst h2
            subst h3
            rcases hcase with ⟨_, h⟩ | ⟨hok', _⟩
            · exact h
            · rw [hok] at hok'
              exact (Bool.false_ne_true hok').elim
      | true =>
        cases h204 : status == 204 with
        | true =>
          simp only [quoFetch, hok, Bool.not_true, Bool.false_eq_true, if_false,
            h204, if_true]
          constructor
          · intro hcon
            cases hcon
          · rintro (hcon | ⟨n', m', hcon, _⟩ | ⟨s', t', b', heq, hcase⟩)
            · cases hcon
            · cases hcon
            · injection heq with h1 h2 h3
              subst h1
              subst h2
              subst h3
              rcases hcase with ⟨hok', _⟩ | ⟨_, h204', _, _⟩
              · rw [hok] at hok'
                cases hok'
              · rw [h204] at h204'
                cases h204'
        | false =>
          cases hp : jsonParse body with
          | some v =>
            simp only [quoFetch, hok, Bool.not_true, Bool.false_eq_true, if_false,
              h204, hp]
            constructor
            · intro hcon
              cases hcon
            · rintro (hcon | ⟨n', m', hcon, _⟩ | ⟨s', t', b', heq, hcase⟩)
              · cases hcon
              · cases hcon
              · injection heq with h1 h2 h3
                subst h1
                subst h2
                subst h3
                rcases hcase with ⟨hok', _⟩ | ⟨_, _, hp', _⟩
                · rw [hok] at hok'
                  cases hok'
                · rw [hp] at hp'
                  cases hp'
          | none =>
            simp only [quoFetch, hok, Bool.not_true, Bool.false_eq_true, if_false,
              h204, hp, Except.error.injEq]
            constructor
            · intro h
              exact Or.inr (Or.inr ⟨status, stText, body, rfl,
                Or.inr ⟨hok, h204, hp, h⟩⟩)
            · rintro (hcon | ⟨n', m', hcon, _⟩ | ⟨s', t', b', heq, hcase⟩)
              · cases hcon
              · cases hcon
              · injection heq with h1 h2 h3
                subst h1
                subst h2
                subst h3
                rcases hcase with ⟨hok', _⟩ | ⟨_, _, _, h⟩
                · rw [hok] at hok'
                  cases hok'
                · exact h
